import Mathlib

/-!
Shallow embedding of the `loc` package (NMEA-0183 decoder, `loc.go`).

Go strings and byte slices are modelled as `List Nat` (byte values),
machine integers as `Nat`/`Int` with explicit truncation where a Go
conversion truncates, and Go `panic` as `Option` (`none` = panic).
Wall-clock time is modelled as a `Nat` supplied to each operation.
`float32` fields are modelled as `ℚ`; no claim depends on their values,
and the decimal-string parser below models `strconv.ParseFloat` on
plain decimal forms (returning 0 on malformed input, as the code
ignores parse errors).
-/

namespace Loc

/-- Go strings / byte slices, as lists of byte values. -/
abbrev Str := List Nat

/-- Bytes of a Lean string literal (for the Go string constants). -/
def strBytes (s : String) : Str := s.toList.map Char.toNat

-- Constants from loc.go
def LOC_SIG_BAD : Nat := 0
def LOC_SIG_GPS : Nat := 1
def LOC_FIX_NONE : Nat := 0
def LOC_FIX_BAD : Nat := 1
def LOC_FIX_2D : Nat := 2
def GxGGA : Nat := 0x0001
def GxGSA : Nat := 0x0002
def GxRMC : Nat := 0x0004
def GxGSV : Nat := 0x0010

def LOC_HAVE_NOTHING : Nat := 0
def LOC_HAVE_TIME : Nat := 1
def LOC_HAVE_POSITION : Nat := 2
def LOC_HAVE_ALTITUDE : Nat := 3
def LOC_HAVE_DOP : Nat := 4
def LOC_HAVE_SATELLITES : Nat := 5

/-- `c` is an ASCII decimal digit. -/
def isDigit (c : Nat) : Bool := 48 ≤ c && c ≤ 57

/-- Value of a digit list read in base 10. -/
def digitsToNat (l : Str) : Nat := l.foldl (fun a c => a * 10 + (c - 48)) 0

/-- Clamp to the Go `int` (int64) range; `strconv.Atoi` returns the
clamped value on range error (the code ignores the error). -/
def clampI64 (x : Int) : Int :=
  max (-(2 ^ 63)) (min (2 ^ 63 - 1) x)

/-- Model of Go `strconv.Atoi` with the error ignored: optional sign,
then one or more digits; any syntax error yields 0. -/
def atoi (s : Str) : Int :=
  let p : Int × Str :=
    match s with
    | 43 :: r => (1, r)     -- '+'
    | 45 :: r => (-1, r)    -- '-'
    | r => (1, r)
  if p.2 ≠ [] ∧ p.2.all isDigit then clampI64 (p.1 * digitsToNat p.2) else 0

/-- Hex value of an ASCII character, if any. -/
def hexVal (c : Nat) : Option Nat :=
  if 48 ≤ c ∧ c ≤ 57 then some (c - 48)
  else if 65 ≤ c ∧ c ≤ 70 then some (c - 55)
  else if 97 ≤ c ∧ c ≤ 102 then some (c - 87)
  else none

/-- Model of `strconv.ParseUint(s, 16, 8)` on a two-byte slice, error
ignored: the value of the two hex digits, or 0 on a syntax error. -/
def parseHexByte (a b : Nat) : Nat :=
  match hexVal a, hexVal b with
  | some x, some y => 16 * x + y
  | _, _ => 0

/-- Truncation of a rational toward zero (integer part of Go `math.Modf`). -/
def ratTrunc (q : ℚ) : Int := if q < 0 then -((-q).floor) else q.floor

/-- Model of `strconv.ParseFloat` with the error ignored, restricted to
plain decimal forms `[+-]digits[.digits]` (the only forms NMEA fields
use); anything else yields 0.  float32 rounding is not modelled: no
claim depends on a float value. -/
def parseRat (s : Str) : ℚ :=
  let p : ℚ × Str :=
    match s with
    | 43 :: r => (1, r)
    | 45 :: r => (-1, r)
    | r => (1, r)
  match p.2.splitOn 46 with   -- '.'
  | [ip] =>
      if ip ≠ [] ∧ ip.all isDigit then p.1 * digitsToNat ip else 0
  | [ip, fp] =>
      if ip ≠ [] ∧ ip.all isDigit ∧ fp ≠ [] ∧ fp.all isDigit then
        p.1 * ((digitsToNat ip : ℚ) + (digitsToNat fp : ℚ) / ((10 : ℚ) ^ fp.length))
      else 0
  | _ => 0

/-- Go `int → uint8` conversion (low 8 bits). -/
def u8 (x : Int) : Nat := (x.emod 256).toNat

/-- Go `int → uint16` conversion (low 16 bits). -/
def u16 (x : Int) : Nat := (x.emod 65536).toNat

-- Time structure (struct LocTime; all fields uint16).
structure LocTime where
  year : Nat := 0
  month : Nat := 0
  dow : Nat := 0
  day : Nat := 0
  hour : Nat := 0
  minute : Nat := 0
  second : Nat := 0
  ms : Nat := 0
deriving Repr, DecidableEq

-- Satellite information (struct LocSat).
structure LocSat where
  id : Nat := 0        -- uint8
  elv : Nat := 0       -- uint8
  azimuth : Nat := 0   -- uint16
  sig : Nat := 0       -- uint8
  inuse : Bool := false
deriving Repr, DecidableEq

-- Location information (struct LocInfo).
structure LocInfo where
  level : Nat := 0     -- uint8
  quality : Nat := 0   -- uint8
  navMode : Nat := 0   -- uint8
  smask : Nat := 0     -- uint8
  utc : LocTime := {}
  pdop : ℚ := 0
  hdop : ℚ := 0
  vdop : ℚ := 0
  lat : ℚ := 0
  lon : ℚ := 0
  elv : ℚ := 0
  speed : ℚ := 0
  heading : ℚ := 0
  mv : ℚ := 0
  sats : List LocSat := []
deriving Repr, DecidableEq

/-- The package-level mutable state of loc.go (the var block). -/
structure LocState where
  curLoc : LocInfo := {}
  iuBM : List Nat := List.replicate 32 0  -- [256/8]uint8
  lastGSV : Bool := false
  noGSVcnt : Nat := 0
  lst : Str := []
  pst : Str := []
  tst : Str := []
  nOk : Nat := 0
  minDel : Nat := 0    -- duration, in the abstract time unit
  tPrev : Nat := 0     -- arrival time of the previous sentence
deriving Repr, DecidableEq

/-- One `%2d` item of Go `fmt.Sscanf`: read one or two leading digits;
`none` on scan failure (the corresponding Go variable is left untouched,
as are all later ones). -/
def scan2 (s : Str) : Option (Nat × Str) :=
  match s with
  | a :: b :: r =>
      if isDigit a then
        if isDigit b then some ((a - 48) * 10 + (b - 48), r)
        else some (a - 48, b :: r)
      else none
  | [a] => if isDigit a then some (a - 48, []) else none
  | [] => none

/-- `fmt.Sscanf(s, "%2d%2d%2d.%2d", &hour, &minute, &second, &ms)`:
items are assigned one by one until the first failure. -/
def scanTime (s : Str) (t : LocTime) : LocTime :=
  match scan2 s with
  | none => t
  | some (h, r1) =>
    let t := { t with hour := h }
    match scan2 r1 with
    | none => t
    | some (m, r2) =>
      let t := { t with minute := m }
      match scan2 r2 with
      | none => t
      | some (sec, r3) =>
        let t := { t with second := sec }
        match r3 with
        | 46 :: r4 =>     -- the literal '.'
          match scan2 r4 with
          | none => t
          | some (ms, _) => { t with ms := ms }
        | _ => t

/-- `fmt.Sscanf(s, "%2d%2d%2d", &day, &month, &year)`. -/
def scanDate (s : Str) (t : LocTime) : LocTime :=
  match scan2 s with
  | none => t
  | some (d, r1) =>
    let t := { t with day := d }
    match scan2 r1 with
    | none => t
    | some (m, r2) =>
      let t := { t with month := m }
      match scan2 r2 with
      | none => t
      | some (y, _) => { t with year := y }

/-- fixLG: convert "ddmm.mmmmm" (as a number) to decimal degrees. -/
def fixLG (lg : ℚ) : ℚ :=
  let i : ℚ := ratTrunc (lg / 100)
  let f : ℚ := lg / 100 - i
  i + f * 100 / 60

/-- Byte values of the Go day-of-week table string. -/
def dowTable : Str := strBytes "-bed=pen+mad."

/-- fixDow: Sakamoto day-of-the-week (uint16 arithmetic).  Go indexes
the 13-byte table string with the scanned month, so a month of 13 or
more panics (string index out of range); `none` models that panic. -/
def fixDow (t : LocTime) : Option LocTime :=
  let y := if t.month < 3 then t.year - 1 else t.year
  match dowTable.get? t.month with
  | none => none       -- Go string index out of range panics
  | some ch => some { t with dow := (y + y / 4 - y / 100 + y / 400 + ch + t.day) % 7 }

/-- Field access `fields[i]`; handlers are only called with at least
their minimum field count (checked in `processSentence`), so the
default is never reached on pipeline-reachable calls. -/
def fld (fields : List Str) (i : Nat) : Str := fields.getD i []

/-- doGGA: Global positioning system fix data. -/
def doGGA (fields : List Str) (st : LocState) : LocState :=
  let c := st.curLoc
  let utc := scanTime (fld fields 1) c.utc
  let utc := { utc with ms := utc.ms * 10 }
  let lat := fixLG (parseRat (fld fields 2))
  let lat := if fld fields 3 = strBytes "S" then -lat else lat
  let lon := fixLG (parseRat (fld fields 4))
  let lon := if fld fields 5 = strBytes "W" then -lon else lon
  let q := atoi (fld fields 6)
  let h := parseRat (fld fields 8)
  let a := parseRat (fld fields 9)
  { st with curLoc := { c with
      utc := utc, lat := lat, lon := lon,
      quality := u8 q, hdop := h, elv := a, smask := c.smask ||| GxGGA } }

/-- doRMC: Recommended Minimum data; `none` = the handler panicked in
fixDow (scanned month 13 or more), before the status switch runs. -/
def doRMC (fields : List Str) (st : LocState) : Option LocState :=
  let c := st.curLoc
  let utc := scanTime (fld fields 1) c.utc
  let utc := { utc with ms := utc.ms * 10 }
  let lat := fixLG (parseRat (fld fields 3))
  let lat := if fld fields 4 = strBytes "S" then -lat else lat
  let lon := fixLG (parseRat (fld fields 5))
  let lon := if fld fields 6 = strBytes "W" then -lon else lon
  let speed := parseRat (fld fields 7) * (1852 / 1000 : ℚ)
  let heading := parseRat (fld fields 8)
  let utc := scanDate (fld fields 9) utc
  let utc := { utc with year := (utc.year + 2000) % 65536 }
  match fixDow utc with
  | none => none       -- the panic aborts doRMC here (source line 291)
  | some utc =>
    let mv := parseRat (fld fields 10)
    let mv := if fld fields 11 = strBytes "W" then -mv else mv
    let qn : Nat × Nat :=
      if fld fields 2 = strBytes "A" then
        (if c.quality = LOC_SIG_BAD then LOC_SIG_GPS else c.quality,
         if c.navMode ≤ LOC_FIX_BAD then LOC_FIX_2D else c.navMode)
      else if fld fields 2 = strBytes "V" then
        (LOC_SIG_BAD, LOC_FIX_BAD)
      else (c.quality, c.navMode)
    some { st with curLoc := { c with
        utc := utc, lat := lat, lon := lon,
        speed := speed, heading := heading, mv := mv,
        quality := qn.1, navMode := qn.2, smask := c.smask ||| GxRMC } }

/-- One iteration of the doGSA satellite-id loop over fields 3..14:
`none` models the Go `panic` on an id greater than 255 (and the index
panic a large negative id would cause). -/
def gsaSetId (bm : List Nat) (id : Int) : Option (List Nat) :=
  if id = 0 then some bm
  else if id > 255 then none                    -- panic in the source
  else
    let idx := id.tdiv 8
    if idx < 0 then none                        -- index out of range panics
    else
      let bit := if id.tmod 8 < 0 then 0        -- Go shift by a huge uint is 0
                 else 1 <<< (id.tmod 8).toNat
      some (bm.set idx.toNat ((bm.getD idx.toNat 0) ||| bit))

/-- The doGSA loop `for i := 3; i < 3+12; i++`. -/
def gsaLoop (fields : List Str) (bm : List Nat) : Option (List Nat) :=
  (List.range 12).foldlM (fun b i => gsaSetId b (atoi (fld fields (3 + i)))) bm

/-- doGSA: DOP and active satellites; `none` = the handler panicked. -/
def doGSA (fields : List Str) (st : LocState) : Option LocState :=
  let c := st.curLoc
  let m := atoi (fld fields 2)
  match gsaLoop fields st.iuBM with
  | none => none
  | some bm =>
    let pdop := parseRat (fld fields 15)
    let hdop := parseRat (fld fields 16)
    let vdop := parseRat (fld fields 17)
    some { st with
      iuBM := bm,
      curLoc := { c with
        navMode := u8 m, pdop := pdop, hdop := hdop,
        vdop := vdop, smask := c.smask ||| GxGSA } }

/-- One satellite record built from fields `4+i*4 ..`, tagged in-use by
the current bitmap (only called with `1 ≤ sv ≤ 255`). -/
def mkSat (fields : List Str) (bm : List Nat) (i : Nat) (sv : Int) : LocSat :=
  { id := sv.toNat,
    elv := u8 (atoi (fld fields (4 + i * 4 + 1))),
    azimuth := u16 (atoi (fld fields (4 + i * 4 + 2))),
    sig := u8 (atoi (fld fields (4 + i * 4 + 3))),
    inuse := (bm.getD (sv.toNat / 8) 0) &&& (1 <<< (sv.toNat % 8)) ≠ 0 }

/-- The doGSV satellite-append loop (index `i`, `r` iterations left);
on a bad id it returns the state as already mutated (the Go `return`
in the middle of the loop), and only after a full pass sets the GSV
bit in the sentence mask. -/
def gsvLoop (fields : List Str) : Nat → Nat → LocState → LocState
  | _, 0, st =>
    { st with curLoc := { st.curLoc with smask := st.curLoc.smask ||| GxGSV } }
  | i, r + 1, st =>
    let sv := atoi (fld fields (4 + i * 4))
    if sv = 0 ∨ sv < 0 ∨ sv > 255 then st   -- uint(sv) > 255 also catches sv < 0
    else
      gsvLoop fields (i + 1) r
        { st with curLoc := { st.curLoc with
            sats := st.curLoc.sats ++ [mkSat fields st.iuBM i sv] } }

/-- doGSV: Satellites in View. -/
def doGSV (fields : List Str) (st : LocState) : LocState :=
  let numMsg := atoi (fld fields 1)
  let msgNum := atoi (fld fields 2)
  let numSV := atoi (fld fields 3)
  if msgNum > numMsg ∨ numSV < 0 ∨ numMsg ≠ (numSV + 3).tdiv 4 then st
  else
    let ns : Nat := if msgNum = numMsg then ((numSV - 1).tmod 4 + 1).toNat else 4
    if fields.length < 4 + 4 * ns then st
    else
      let st :=
        if st.lastGSV ∧ (fld fields 0).getD 1 0 = 80 then   -- fields[0][1] == 'P'
          { st with lastGSV := false, curLoc := { st.curLoc with sats := [] } }
        else st
      let st := if msgNum = numMsg then { st with lastGSV := true } else st
      gsvLoop fields 0 ns st

/-- getLoc: compute the level, snapshot the fix and reset the
accumulator for the next cycle. -/
def getLoc (st : LocState) : LocInfo × LocState :=
  let c := st.curLoc
  let level : Nat :=
    if c.smask &&& GxRMC ≠ 0 then
      if c.quality ≠ LOC_SIG_BAD then
        if c.smask &&& GxGSA ≠ 0 then
          if c.smask &&& GxGSV ≠ 0 ∨ c.sats ≠ [] then LOC_HAVE_SATELLITES
          else LOC_HAVE_DOP
        else
          if c.smask &&& GxGGA ≠ 0 then LOC_HAVE_ALTITUDE
          else LOC_HAVE_POSITION
      else
        if c.utc.year ≠ 0 then LOC_HAVE_TIME else LOC_HAVE_NOTHING
    else LOC_HAVE_NOTHING
  let lastLoc := { c with level := level }
  -- clear all but curLoc.Sats
  let cleared : LocInfo := { sats := c.sats }
  -- 4 consecutive fixes without a GSV message clear curLoc.Sats
  let p : Nat × List LocSat :=
    if lastLoc.smask &&& GxGSV ≠ 0 then (0, cleared.sats)
    else
      if st.noGSVcnt + 1 ≥ 4 then (st.noGSVcnt + 1, [])
      else (st.noGSVcnt + 1, cleared.sats)
  (lastLoc,
   { st with curLoc := { cleared with sats := p.2 },
             noGSVcnt := p.1,
             iuBM := List.replicate 32 0 })

/-- checkCycle: is this (spliced) sentence the last one of the NMEA
cycle?  `none` models the Go panics (`ss[0][2:]` on a short field,
`ss[1]`/`ss[2]` out of range).  `now` stands for `time.Now()` so that
`time.Since(tPrev) = now - tPrev`. -/
def checkCycle (ss : List Str) (now : Nat) (st : LocState) : Option (Bool × LocState) :=
  if st.lst ≠ [] then
    if ss.headD [] = st.lst then
      if 2 ≤ (ss.headD []).length then
        let sf := (ss.headD []).drop 2
        if sf ≠ strBytes "GSV" then some (true, st)
        else
          match ss.get? 1, ss.get? 2 with
          | some a, some b => some (decide (a = b), st)
          | _, _ => none                -- index out of range panics
      else none                         -- ss[0][2:] panics
    else some (false, st)
  else
    if st.pst ≠ [] then
      if now - st.tPrev ≥ st.minDel then
        if st.pst = st.tst then
          let n := st.nOk + 1
          if n = 4 then some (false, { st with nOk := n, lst := st.pst })
          else some (false, { st with nOk := n })
        else some (false, { st with tst := st.pst, nOk := 0 })
      else some (false, st)
    else some (false, st)

/-- Lines 522-527 of processSentence: run checkCycle, then record this
sentence's arrival time and type for the next call. -/
def senseStep (ss : List Str) (now : Nat) (st : LocState) : Option (Bool × LocState) :=
  match checkCycle ss now st with
  | none => none
  | some (eoc, st) => some (eoc, { st with tPrev := now, pst := ss.headD [] })

/-- `strings.Split(s, ",")` on byte strings; always returns at least
one part. -/
def splitComma : Str → List Str
  | [] => [[]]
  | c :: r =>
    let p := splitComma r
    if c = 44 then [] :: p
    else (c :: p.headD []) :: p.tail

/-- The validation part of processSentence (lines 484-510): length
bounds, trailing CR, optional checksum.  On acceptance returns the
payload `sentence[1:n]` with `$`, any `*HH` suffix and CR LF removed. -/
def validateSentence (s : Str) : Option Str :=
  let n := s.length
  if n < 3 + 8 then none
  else if n > 82 then none
  else if s.getD (n - 2) 0 ≠ 13 then none      -- missing CR
  else
    let n := n - 2                              -- ignore trailing CR+LF
    let m := n - 3                              -- new length if checksum present
    if s.getD m 0 = 42 then                     -- '*'
      let ccs := ((s.take m).drop 1).foldl Nat.xor 0
      let scs := parseHexByte (s.getD (m + 1) 0) (s.getD (m + 2) 0)
      if scs ≠ ccs then none                    -- bad checksum
      else some ((s.take m).drop 1)
    else some ((s.take n).drop 1)

/-- The dispatch table fmtFA: handler selector and minimum field
count, keyed by the Sequence Formatter. -/
def fmtMF (sf : Str) : Option Nat :=
  if sf = strBytes "GGA" then some 10
  else if sf = strBytes "GSA" then some 18
  else if sf = strBytes "RMC" then some 12
  else if sf = strBytes "GSV" then some 4
  else none

/-- Run the handler selected by the Sequence Formatter. -/
def runHandler (sf : Str) (ss : List Str) (st : LocState) : Option LocState :=
  if sf = strBytes "GGA" then some (doGGA ss st)
  else if sf = strBytes "GSA" then doGSA ss st
  else if sf = strBytes "RMC" then doRMC ss st
  else if sf = strBytes "GSV" then some (doGSV ss st)
  else some st

/-- processSentence: validate, split, cycle bookkeeping, dispatch and
possibly deliver a fix.  `none` = a Go panic escaped; otherwise the new
state and the fix pushed on the channel, if any. -/
def processSentence (sentence : Str) (now : Nat) (st : LocState) :
    Option (LocState × Option LocInfo) :=
  match validateSentence sentence with
  | none => some (st, none)            -- logged and dropped, state untouched
  | some payload =>
    let ss := splitComma payload
    match senseStep ss now st with
    | none => none
    | some (eoc, st) =>
      let s0 := ss.headD []
      if 2 ≤ s0.length then
        let sf := s0.drop 2            -- ss[0][2:]
        let next : Option LocState :=
          match fmtMF sf with
          | some mf => if ss.length < mf then some st else runHandler sf ss st
          | none => some st            -- unknown type: skipped
        match next with
        | none => none
        | some st =>
          if eoc then
            let p := getLoc st
            some (p.2, some p.1)
          else some (st, none)
      else none                        -- ss[0][2:] panics

/-- `strings.IndexByte`: index of the first occurrence of `c`. -/
def findB (c : Nat) : Str → Option Nat
  | [] => none
  | x :: xs => if x = c then some 0 else (findB c xs).map (· + 1)

theorem findB_lt_length {c : Nat} {l : Str} {i : Nat} (h : findB c l = some i) :
    i < l.length := by
  induction l generalizing i with
  | nil => simp [findB] at h
  | cons x xs ih =>
    by_cases hx : x = c
    · simp [findB, hx] at h
      simp
      omega
    · simp [findB, hx] at h
      obtain ⟨j, hj, rfl⟩ := h
      have := ih hj
      simp only [List.length_cons]
      omega

/-- Feed (lines 557-581): the two-state framer loop, processing each
completed `$...\n` frame through processSentence.  The frame-scan
state is 0 (waiting for `$`) or 1 (waiting for LF); `buf` is feedBuf.
Returns the final framing state, the final package state and the
fixes delivered during the call; `none` = a panic escaped. -/
def FeedF (fs : Nat) (buf : Str) (st : LocState) (now : Nat) (data : Str) :
    Option ((Nat × Str) × LocState × List LocInfo) :=
  match fs with
  | 0 =>
    match h : findB 36 data with       -- '$'
    | none => some ((0, buf), st, [])  -- ignore this data chunk
    | some i => FeedF 1 buf st now (data.drop i)
  | _ + 1 =>
    match h : findB 10 data with       -- '\n'
    | none => some ((1, buf ++ data), st, [])
    | some i =>
      (processSentence (buf ++ data.take (i + 1)) now st).bind (fun r =>
        (FeedF 0 [] r.1 now (data.drop (i + 1))).map (fun q =>
          (q.1, q.2.1, r.2.toList ++ q.2.2)))
termination_by 2 * data.length + (1 - fs)
decreasing_by
  · have hi := findB_lt_length h
    simp only [List.length_drop]
    omega
  · have hi := findB_lt_length h
    simp only [List.length_drop]
    omega

/-- Feeding a list of chunks one call at a time, concatenating the
delivered fixes. -/
def feedChunks (fs : Nat) (buf : Str) (st : LocState) (now : Nat) :
    List Str → Option ((Nat × Str) × LocState × List LocInfo)
  | [] => some ((fs, buf), st, [])
  | d :: ds =>
    (FeedF fs buf st now d).bind (fun p =>
      (feedChunks p.1.1 p.1.2 p.2.1 now ds).map (fun q =>
        (q.1, q.2.1, p.2.2 ++ q.2.2)))

/-- Continue a partial Feed result with a further chunk: used to state
that feeding `a ++ b` equals feeding `a` and then `b`. -/
def feedCompose (r : Option ((Nat × Str) × LocState × List LocInfo))
    (now : Nat) (b : Str) : Option ((Nat × Str) × LocState × List LocInfo) :=
  r.bind (fun p =>
    (FeedF p.1.1 p.1.2 p.2.1 now b).map (fun q =>
      (q.1, q.2.1, p.2.2 ++ q.2.2)))

/-- Iterated cycle close: `(getLoc st).2`, applied `k` times (the state
evolution of `k` cycle boundaries with no sentence processed between). -/
def closeCycles : Nat → LocState → LocState
  | 0, st => st
  | k + 1, st => closeCycles k (getLoc st).2

/-- Run `senseStep` over a list of (spliced sentence, arrival time)
events, collecting the boundary decisions; `none` = a panic. -/
def runSense (st : LocState) : List (List Str × Nat) → Option (LocState × List Bool)
  | [] => some (st, [])
  | (ss, now) :: rest =>
    match senseStep ss now st with
    | none => none
    | some (b, st') =>
      match runSense st' rest with
      | none => none
      | some (stf, bs) => some (stf, b :: bs)

/-- The boundary candidates of an event list: the previous sentence's
type at each qualifying gap (elapsed time at least `minDel`), starting
from a given (previous type, previous time) pair. -/
def qualCands (minDel : Nat) : Str × Nat → List (List Str × Nat) → List Str
  | _, [] => []
  | (pst, tPrev), (ss, now) :: rest =>
    (if pst ≠ [] ∧ now - tPrev ≥ minDel then [pst] else []) ++
      qualCands minDel (ss.headD [], now) rest

/-- A uniform learning run: `n` sentences of type `T`, one every 400
time units, against a fresh state with a 300-unit minimum gap. -/
def learnRun (T : Str) (n : Nat) : Option (LocState × List Bool) :=
  runSense { minDel := 300 } ((List.range n).map (fun i => ([T], 400 * i)))

/-! Concrete NMEA material used by the theorems below. -/

/-- A GSA sentence (18 fields) whose first satellite-id field is 256. -/
def gsaBad256 : List Str :=
  splitComma (strBytes "GNGSA,A,3,256,05,,,,,,,,,,,2.5,1.3,2.1")

/-- A well-formed GSA sentence using satellites 1..8. -/
def gsaOk : List Str :=
  splitComma (strBytes "GPGSA,A,3,01,02,03,04,05,06,07,08,,,,,2.5,1.3,2.1")

/-- First message of the C5 burst: numMsg=2, msgNum=1, numSV=8. -/
def gsvMsg1 : List Str :=
  splitComma (strBytes "GPGSV,2,1,08,01,40,083,46,02,17,308,41,03,07,344,39,04,22,228,45")

/-- Second message of the C5 burst: numMsg=2, msgNum=2, numSV=8. -/
def gsvMsg2 : List Str :=
  splitComma (strBytes "GPGSV,2,2,08,05,13,089,42,06,46,198,47,07,45,067,44,08,11,332,40")

/-- A final GSV message whose second satellite id field is 300. -/
def gsvBadId : List Str :=
  splitComma (strBytes "GPGSV,1,1,02,09,40,083,46,300,17,308,41")

/-- A GSA sentence marking only satellites 2 and 5 in use. -/
def gsaPart : List Str :=
  splitComma (strBytes "GPGSA,A,3,02,05,,,,,,,,,,2.5,1.3,2.1")

/-- The state after processing `gsaOk` from a fresh state. -/
def stGSA : LocState := (doGSA gsaOk {}).getD {}

/-- The state after processing `gsaPart` from a fresh state. -/
def stGSAp : LocState := (doGSA gsaPart {}).getD {}

/-- A void RMC sentence (status field V). -/
def rmcVoid : List Str :=
  splitComma (strBytes "GPRMC,225444,V,4916.45,N,12311.12,W,000.5,054.7,191194,020.3,E")

/-- The spec's checksum example sentence, as raw bytes. -/
def gllGood : Str := strBytes "$GPGLL,4916.45,N,12311.12,W,225444,A,*1D\r\n"

/-- The same sentence with the checksum's last hex digit altered. -/
def gllBad : Str := strBytes "$GPGLL,4916.45,N,12311.12,W,225444,A,*1E\r\n"

/-! ## Theorems -/

/-- Setting a bit via `|||` leaves the masked value non-zero. -/
theorem or_and_self_ne_zero {a b i : Nat} (hb : b.testBit i = true) :
    (a ||| b) &&& b ≠ 0 := by
  intro h0
  have hbit : ((a ||| b) &&& b).testBit i = true := by
    simp [Nat.testBit_and, Nat.testBit_or, hb]
  rw [h0] at hbit
  simp [Nat.zero_testBit] at hbit

/-- C1: the claim says a satellite id greater than 255 in a GSA
sentence is surfaced as a recoverable error and processing continues.
The code instead panics: evaluating the GSA handler on a sentence whose
first satellite-id field is 256 reaches the `panic` (modelled as
`none`), aborting the process rather than skipping the sentence. -/
theorem c1_gsa_id_over_255_panics : doGSA gsaBad256 {} = none := by
  rfl

/-- C8: the sentence validator rejects sentences shorter than 11 bytes,
longer than 82 bytes, or lacking CR at position length-2; when a `*` is
present 5 bytes from the end (3 before the CRLF-adjusted end), the two
hex digits after it must equal the XOR of the bytes strictly between
`$` and `*`, rejecting on mismatch; sentences without a checksum are
accepted unverified; the spec's GLL example is accepted and the same
sentence with the last checksum digit altered is rejected. -/
theorem c8_validator :
    (∀ s : Str, s.length < 11 → validateSentence s = none) ∧
    (∀ s : Str, s.length > 82 → validateSentence s = none) ∧
    (∀ s : Str, 11 ≤ s.length → s.length ≤ 82 → s.getD (s.length - 2) 0 ≠ 13 →
      validateSentence s = none) ∧
    (∀ s : Str, 11 ≤ s.length → s.length ≤ 82 → s.getD (s.length - 2) 0 = 13 →
      s.getD (s.length - 5) 0 = 42 →
      (parseHexByte (s.getD (s.length - 4) 0) (s.getD (s.length - 3) 0) ≠
          ((s.take (s.length - 5)).drop 1).foldl Nat.xor 0 →
        validateSentence s = none) ∧
      (parseHexByte (s.getD (s.length - 4) 0) (s.getD (s.length - 3) 0) =
          ((s.take (s.length - 5)).drop 1).foldl Nat.xor 0 →
        validateSentence s = some ((s.take (s.length - 5)).drop 1))) ∧
    (∀ s : Str, 11 ≤ s.length → s.length ≤ 82 → s.getD (s.length - 2) 0 = 13 →
      s.getD (s.length - 5) 0 ≠ 42 →
      validateSentence s = some ((s.take (s.length - 2)).drop 1)) ∧
    validateSentence gllGood = some (strBytes "GPGLL,4916.45,N,12311.12,W,225444,A,") ∧
    validateSentence gllBad = none := by
  refine ⟨?_, ?_, ?_, ?_, ?_, by rfl, by rfl⟩
  · intro s h; simp [validateSentence, h]
  · intro s h
    simp only [validateSentence]
    rw [if_neg (by omega), if_pos (by omega)]
  · intro s h1 h2 hcr
    simp only [validateSentence]
    rw [if_neg (by omega), if_neg (by omega), if_pos hcr]
  · intro s h1 h2 hcr hstar
    have e1 : s.length - 2 - 3 = s.length - 5 := by omega
    have e2 : s.length - 5 + 1 = s.length - 4 := by omega
    have e3 : s.length - 5 + 2 = s.length - 3 := by omega
    constructor
    · intro hne
      simp only [validateSentence, e1, e2, e3]
      rw [if_neg (by omega), if_neg (by omega), if_neg (not_ne_iff.mpr hcr),
        if_pos hstar, if_pos hne]
    · intro heq
      simp only [validateSentence, e1, e2, e3]
      rw [if_neg (by omega), if_neg (by omega), if_neg (not_ne_iff.mpr hcr),
        if_pos hstar, if_neg (not_ne_iff.mpr heq)]
  · intro s h1 h2 hcr hstar
    have e1 : s.length - 2 - 3 = s.length - 5 := by omega
    simp only [validateSentence, e1]
    rw [if_neg (by omega), if_neg (by omega), if_neg (not_ne_iff.mpr hcr),
      if_neg hstar]

/-- C8 witness: `c8_validator` applied at concrete sentences with its
hypotheses discharged. -/
theorem c8_validator_witness :
    validateSentence (strBytes "$GP\r\n") = none ∧
    validateSentence (strBytes "$GPGLL,TEST\r\n") = some (strBytes "GPGLL,TEST") := by
  constructor
  · exact c8_validator.1 (strBytes "$GP\r\n") (by decide)
  · exact c8_validator.2.2.2.2.1 (strBytes "$GPGLL,TEST\r\n")
      (by decide) (by decide) (by decide) (by decide)

/-- C3: at cycle close the delivered fix's level follows the exact
precedence on the contributed-sentence mask and field values: no RMC
gives 0 (the void-RMC-timestamp proviso is vacuous there, since any
RMC, void included, sets the RMC bit — last conjunct); RMC with bad
quality gives 1 when the year is non-zero, else 0; RMC with good
quality and no GSA gives 2, or 3 with GGA; RMC and GSA give 4, or 5
when GSV contributed or the satellite list is non-empty. -/
theorem c3_level (st : LocState) :
    (st.curLoc.smask &&& GxRMC = 0 → ((getLoc st).1).level = LOC_HAVE_NOTHING) ∧
    (st.curLoc.smask &&& GxRMC ≠ 0 → st.curLoc.quality = LOC_SIG_BAD →
      ((getLoc st).1).level =
        (if st.curLoc.utc.year ≠ 0 then LOC_HAVE_TIME else LOC_HAVE_NOTHING)) ∧
    (st.curLoc.smask &&& GxRMC ≠ 0 → st.curLoc.quality ≠ LOC_SIG_BAD →
      st.curLoc.smask &&& GxGSA = 0 → st.curLoc.smask &&& GxGGA = 0 →
      ((getLoc st).1).level = LOC_HAVE_POSITION) ∧
    (st.curLoc.smask &&& GxRMC ≠ 0 → st.curLoc.quality ≠ LOC_SIG_BAD →
      st.curLoc.smask &&& GxGSA = 0 → st.curLoc.smask &&& GxGGA ≠ 0 →
      ((getLoc st).1).level = LOC_HAVE_ALTITUDE) ∧
    (st.curLoc.smask &&& GxRMC ≠ 0 → st.curLoc.quality ≠ LOC_SIG_BAD →
      st.curLoc.smask &&& GxGSA ≠ 0 → st.curLoc.smask &&& GxGSV = 0 →
      st.curLoc.sats = [] → ((getLoc st).1).level = LOC_HAVE_DOP) ∧
    (st.curLoc.smask &&& GxRMC ≠ 0 → st.curLoc.quality ≠ LOC_SIG_BAD →
      st.curLoc.smask &&& GxGSA ≠ 0 →
      (st.curLoc.smask &&& GxGSV ≠ 0 ∨ st.curLoc.sats ≠ []) →
      ((getLoc st).1).level = LOC_HAVE_SATELLITES) ∧
    (∀ fields st st', doRMC fields st = some st' →
      st'.curLoc.smask &&& GxRMC ≠ 0) := by
  refine ⟨?_, ?_, ?_, ?_, ?_, ?_, ?_⟩
  · intro h; simp [getLoc, h]
  · intro h hq; simp [getLoc, h, hq]
  · intro h hq hgsa hgga; simp [getLoc, h, hq, hgsa, hgga]
  · intro h hq hgsa hgga; simp [getLoc, h, hq, hgsa, hgga]
  · intro h hq hgsa hgsv hs; simp [getLoc, h, hq, hgsa, hgsv, hs]
  · intro h hq hgsa hor
    rcases hor with hgsv | hs
    · simp [getLoc, h, hq, hgsa, hgsv]
    · simp [getLoc, h, hq, hgsa, hs]
  · intro fields st st' h
    simp only [doRMC] at h
    split at h
    · exact absurd h (by simp)
    · rw [← Option.some.inj h]
      exact @or_and_self_ne_zero _ GxRMC 2 (by decide)

/-- C3 witness: `c3_level` applied at concrete accumulator states. -/
theorem c3_level_witness :
    ((getLoc { curLoc := { smask := GxRMC ||| GxGSA, quality := 1 } }).1).level =
      LOC_HAVE_DOP ∧
    ((getLoc { curLoc := { smask := GxRMC, quality := 0, utc := { year := 2024 } } }).1).level =
      LOC_HAVE_TIME := by
  constructor
  · exact (c3_level { curLoc := { smask := GxRMC ||| GxGSA, quality := 1 } }).2.2.2.2.1
      (by decide) (by decide) (by decide) (by decide) rfl
  · have h := (c3_level
      { curLoc := { smask := GxRMC, quality := 0, utc := { year := 2024 } } }).2.1
      (by decide) rfl
    simpa using h

/-- C7: with a known last sentence type, the boundary decision of
checkCycle is true iff the sentence's field-0 type equals it, except
that when its formatter part is "GSV" the decision additionally
requires the message-index field to equal the burst-total field; the
hypotheses state that the fields the code then indexes exist (the code
panics otherwise). -/
theorem c7_known_lst (ss : List Str) (now : Nat) (st : LocState)
    (hk : st.lst ≠ [])
    (h2 : ss.headD [] = st.lst → 2 ≤ st.lst.length)
    (h3 : ss.headD [] = st.lst → st.lst.drop 2 = strBytes "GSV" →
      2 < ss.length) :
    ∃ b, checkCycle ss now st = some (b, st) ∧
      (b = true ↔ (ss.headD [] = st.lst ∧
        (st.lst.drop 2 ≠ strBytes "GSV" ∨ ss.getD 1 [] = ss.getD 2 []))) := by
  by_cases heq : ss.headD [] = st.lst
  · have hlen := h2 heq
    by_cases hgsv : st.lst.drop 2 = strBytes "GSV"
    · have hlt := h3 heq hgsv
      obtain ⟨x, hx⟩ : ∃ x, ss[1]? = some x := by
        rw [List.getElem?_eq_getElem (show 1 < ss.length by omega)]
        exact ⟨_, rfl⟩
      obtain ⟨y, hy⟩ : ∃ y, ss[2]? = some y := by
        rw [List.getElem?_eq_getElem (show 2 < ss.length by omega)]
        exact ⟨_, rfl⟩
      have hgx : ss.getD 1 [] = x := by simp [List.getD, hx]
      have hgy : ss.getD 2 [] = y := by simp [List.getD, hy]
      refine ⟨decide (x = y), ?_, ?_⟩
      · have hx' : ss.get? 1 = some x := by rw [List.get?_eq_getElem?]; exact hx
        have hy' : ss.get? 2 = some y := by rw [List.get?_eq_getElem?]; exact hy
        simp only [checkCycle]
        rw [if_pos hk, if_pos heq, heq, if_pos hlen, if_neg (not_ne_iff.mpr hgsv),
          hx', hy']
      · rw [hgx, hgy]
        constructor
        · intro hd
          exact ⟨heq, Or.inr (of_decide_eq_true hd)⟩
        · rintro ⟨-, hor⟩
          rcases hor with hne | hxy
          · exact absurd hgsv hne
          · exact decide_eq_true hxy
    · refine ⟨true, ?_, ?_⟩
      · simp only [checkCycle]
        rw [if_pos hk, if_pos heq, heq, if_pos hlen, if_pos hgsv]
      · exact ⟨fun _ => ⟨heq, Or.inl hgsv⟩, fun _ => rfl⟩
  · refine ⟨false, ?_, ?_⟩
    · simp only [checkCycle]
      rw [if_pos hk, if_neg heq]
    · constructor
      · intro hfalse
        exact absurd hfalse (by simp)
      · rintro ⟨h, -⟩
        exact (heq h).elim

/-- C7 witness: `c7_known_lst` at concrete inputs: a final GSV message
closes the cycle when the known type is GPGSV; a non-final one does
not; a GPRMC sentence closes the cycle when the known type is GPRMC. -/
theorem c7_known_lst_witness :
    checkCycle gsvMsg2 0 { lst := strBytes "GPGSV" } =
      some (true, { lst := strBytes "GPGSV" }) ∧
    checkCycle gsvMsg1 0 { lst := strBytes "GPGSV" } =
      some (false, { lst := strBytes "GPGSV" }) ∧
    checkCycle rmcVoid 0 { lst := strBytes "GPRMC" } =
      some (true, { lst := strBytes "GPRMC" }) := by
  refine ⟨?_, ?_, ?_⟩
  · obtain ⟨b, hb, hiff⟩ := c7_known_lst gsvMsg2 0 { lst := strBytes "GPGSV" }
      (by decide) (fun _ => by decide) (fun _ _ => by decide)
    rwa [hiff.mpr (by decide)] at hb
  · obtain ⟨b, hb, hiff⟩ := c7_known_lst gsvMsg1 0 { lst := strBytes "GPGSV" }
      (by decide) (fun _ => by decide) (fun _ _ => by decide)
    have hbf : b = false := by
      cases hcb : b
      · rfl
      · exact absurd (hiff.mp hcb) (by decide)
    rwa [hbf] at hb
  · obtain ⟨b, hb, hiff⟩ := c7_known_lst rmcVoid 0 { lst := strBytes "GPRMC" }
      (by decide) (fun _ => by decide) (fun _ _ => by decide)
    rwa [hiff.mpr (by decide)] at hb

/-- The satellite-append loop, when every id from position `i` on is in
range, appends one record per detailed satellite and then sets the GSV
bit. -/
theorem gsvLoop_valid (fields : List Str) :
    ∀ r i st,
    (∀ k, i ≤ k → k < i + r → 1 ≤ atoi (fld fields (4 + k * 4)) ∧
      atoi (fld fields (4 + k * 4)) ≤ 255) →
    gsvLoop fields i r st =
      { st with curLoc := { st.curLoc with
          sats := st.curLoc.sats ++ (List.range' i r).map
            (fun k => mkSat fields st.iuBM k (atoi (fld fields (4 + k * 4)))),
          smask := st.curLoc.smask ||| GxGSV } } := by
  intro r
  induction r with
  | zero =>
    intro i st _
    simp [gsvLoop]
  | succ n ih =>
    intro i st hvalid
    obtain ⟨h1, h255⟩ := hvalid i le_rfl (by omega)
    rw [gsvLoop]
    simp only []
    rw [if_neg (by omega)]
    rw [ih (i + 1) _ (fun k hk1 hk2 => hvalid k (by omega) (by omega))]
    rw [List.range'_succ i _ 1]
    simp [List.append_assoc]

/-- The satellite-append loop, when the first out-of-range id is at
position `j`, appends the records before `j` and returns without
touching the sentence mask. -/
theorem gsvLoop_partial (fields : List Str) (j : Nat)
    (hbad : atoi (fld fields (4 + j * 4)) ≤ 0 ∨ 255 < atoi (fld fields (4 + j * 4))) :
    ∀ r i st, i ≤ j → j < i + r →
    (∀ k, i ≤ k → k < j → 1 ≤ atoi (fld fields (4 + k * 4)) ∧
      atoi (fld fields (4 + k * 4)) ≤ 255) →
    gsvLoop fields i r st =
      { st with curLoc := { st.curLoc with
          sats := st.curLoc.sats ++ (List.range' i (j - i)).map
            (fun k => mkSat fields st.iuBM k (atoi (fld fields (4 + k * 4)))) } } := by
  intro r
  induction r with
  | zero =>
    intro i st hij hjr _
    omega
  | succ n ih =>
    intro i st hij hjr hvalid
    by_cases hieq : i = j
    · subst hieq
      rw [gsvLoop]
      simp only []
      rw [if_pos (by omega)]
      simp
    · obtain ⟨h1, h255⟩ := hvalid i le_rfl (by omega)
      rw [gsvLoop]
      simp only []
      rw [if_neg (by omega)]
      rw [ih (i + 1) _ (by omega) (by omega)
        (fun k hk1 hk2 => hvalid k (by omega) hk2)]
      have hr : j - i = (j - (i + 1)) + 1 := by omega
      rw [hr, List.range'_succ i _ 1]
      simp [List.append_assoc]

/-- C5: a GSV sentence whose message index exceeds the total, whose
satellite count is negative, or whose total does not equal the Go
expression `(numSV+3)/4` is rejected with no state change; an accepted
sentence details 4 satellites when non-final and `(numSV-1)%4 + 1`
(Go operators; 0 allowed) when final, appending exactly that many
records, each tagged in-use from the current GSA membership bitmap;
in particular the burst numMsg=2/msgNum=1/numSV=8 then
numMsg=2/msgNum=2/numSV=8 appends 4 then 4 records. -/
theorem c5_gsv (fields : List Str) (st : LocState) :
    ((atoi (fld fields 2) > atoi (fld fields 1) ∨ atoi (fld fields 3) < 0 ∨
        atoi (fld fields 1) ≠ (atoi (fld fields 3) + 3).tdiv 4) →
      doGSV fields st = st) ∧
    (∀ ns : Nat,
      ¬(atoi (fld fields 2) > atoi (fld fields 1) ∨ atoi (fld fields 3) < 0 ∨
        atoi (fld fields 1) ≠ (atoi (fld fields 3) + 3).tdiv 4) →
      ns = (if atoi (fld fields 2) = atoi (fld fields 1)
        then ((atoi (fld fields 3) - 1).tmod 4 + 1).toNat else 4) →
      ¬(fields.length < 4 + 4 * ns) →
      (∀ k, k < ns → 1 ≤ atoi (fld fields (4 + k * 4)) ∧
        atoi (fld fields (4 + k * 4)) ≤ 255) →
      (doGSV fields st).curLoc.sats =
        (if st.lastGSV ∧ (fld fields 0).getD 1 0 = 80 then [] else st.curLoc.sats) ++
          (List.range' 0 ns).map
            (fun k => mkSat fields st.iuBM k (atoi (fld fields (4 + k * 4))))) ∧
    ((doGSV gsvMsg1 stGSA).curLoc.sats.length = 4 ∧
      (doGSV gsvMsg2 (doGSV gsvMsg1 stGSA)).curLoc.sats.length = 8 ∧
      (doGSV gsvMsg2 (doGSV gsvMsg1 stGSA)).curLoc.sats.map LocSat.inuse =
        List.replicate 8 true ∧
      (doGSV gsvMsg1 stGSAp).curLoc.sats.map LocSat.inuse =
        [false, true, false, false]) := by
  refine ⟨?_, ?_, by exact ⟨by decide, by decide, by decide, by decide⟩⟩
  · intro h
    simp only [doGSV]
    rw [if_pos h]
  · intro ns hrej hns hlen hvalid
    simp only [doGSV]
    rw [← hns, if_neg hrej, if_neg hlen]
    have hv : ∀ k, 0 ≤ k → k < 0 + ns → 1 ≤ atoi (fld fields (4 + k * 4)) ∧
        atoi (fld fields (4 + k * 4)) ≤ 255 :=
      fun k _ hk => hvalid k (by omega)
    by_cases hc : st.lastGSV ∧ (fld fields 0).getD 1 0 = 80 <;>
      by_cases hf : atoi (fld fields 2) = atoi (fld fields 1)
    · rw [if_pos hc, if_pos hf, gsvLoop_valid fields ns 0 _ hv]
      simp only [List.getD, List.get?_eq_getElem?] at hc
      simp [hc]
    · rw [if_pos hc, if_neg hf, gsvLoop_valid fields ns 0 _ hv]
      simp only [List.getD, List.get?_eq_getElem?] at hc
      simp [hc]
    · rw [if_neg hc, if_pos hf, gsvLoop_valid fields ns 0 _ hv]
      simp only [List.getD, List.get?_eq_getElem?] at hc
      simp [hc]
    · rw [if_neg hc, if_neg hf, gsvLoop_valid fields ns 0 _ hv]
      simp only [List.getD, List.get?_eq_getElem?] at hc
      simp [hc]

/-- C5 witness: `c5_gsv` applied at concrete inputs: an inconsistent
GSV sentence leaves the state unchanged, and the first burst message
appends its 4 records. -/
theorem c5_gsv_witness :
    doGSV (splitComma (strBytes "GPGSV,1,1,00")) stGSA = stGSA ∧
    (doGSV gsvMsg1 stGSA).curLoc.sats =
      stGSA.curLoc.sats ++ (List.range' 0 4).map
        (fun k => mkSat gsvMsg1 stGSA.iuBM k (atoi (fld gsvMsg1 (4 + k * 4)))) := by
  constructor
  · exact (c5_gsv (splitComma (strBytes "GPGSV,1,1,00")) stGSA).1 (by decide)
  · have h := (c5_gsv gsvMsg1 stGSA).2.1 4 (by decide) (by decide) (by decide)
      (by decide)
    simpa using h

/-- C10: rejection of a GSV sentence for an out-of-range or zero
satellite id at position `j ≥ 1` is not atomic: the handler returns
with the first `j` satellites of the sentence already appended (after
the possible collection clear and burst-flag reset for a new burst),
and without setting the GSV bit — the sentence mask is unchanged. -/
theorem c10_gsv_partial (fields : List Str) (st : LocState) (j ns : Nat)
    (hrej : ¬(atoi (fld fields 2) > atoi (fld fields 1) ∨ atoi (fld fields 3) < 0 ∨
      atoi (fld fields 1) ≠ (atoi (fld fields 3) + 3).tdiv 4))
    (hns : ns = (if atoi (fld fields 2) = atoi (fld fields 1)
      then ((atoi (fld fields 3) - 1).tmod 4 + 1).toNat else 4))
    (hlen : ¬(fields.length < 4 + 4 * ns))
    (hj : 1 ≤ j) (hjns : j < ns)
    (hvalid : ∀ k, k < j → 1 ≤ atoi (fld fields (4 + k * 4)) ∧
      atoi (fld fields (4 + k * 4)) ≤ 255)
    (hbad : atoi (fld fields (4 + j * 4)) ≤ 0 ∨ 255 < atoi (fld fields (4 + j * 4))) :
    (doGSV fields st).curLoc.sats =
      (if st.lastGSV ∧ (fld fields 0).getD 1 0 = 80 then [] else st.curLoc.sats) ++
        (List.range' 0 j).map
          (fun k => mkSat fields st.iuBM k (atoi (fld fields (4 + k * 4)))) ∧
    (doGSV fields st).curLoc.smask = st.curLoc.smask ∧
    (doGSV fields st).lastGSV =
      (if atoi (fld fields 2) = atoi (fld fields 1) then true
       else if st.lastGSV ∧ (fld fields 0).getD 1 0 = 80 then false
       else st.lastGSV) := by
  simp only [doGSV]
  rw [← hns, if_neg hrej, if_neg hlen]
  have hp := gsvLoop_partial fields j hbad ns 0
  by_cases hc : st.lastGSV ∧ (fld fields 0).getD 1 0 = 80 <;>
    by_cases hf : atoi (fld fields 2) = atoi (fld fields 1)
  · rw [if_pos hc, if_pos hf, hp _ (by omega) (by omega)
      (fun k _ hk => hvalid k hk)]
    simp only [List.getD, List.get?_eq_getElem?] at hc
    simp [hc, hf]
  · rw [if_pos hc, if_neg hf, hp _ (by omega) (by omega)
      (fun k _ hk => hvalid k hk)]
    simp only [List.getD, List.get?_eq_getElem?] at hc
    simp [hc, hf]
  · rw [if_neg hc, if_pos hf, hp _ (by omega) (by omega)
      (fun k _ hk => hvalid k hk)]
    simp only [List.getD, List.get?_eq_getElem?] at hc
    simp [hc, hf]
  · rw [if_neg hc, if_neg hf, hp _ (by omega) (by omega)
      (fun k _ hk => hvalid k hk)]
    simp only [List.getD, List.get?_eq_getElem?] at hc
    simp [hc, hf]

/-- C10 witness: `c10_gsv_partial` on the concrete sentence whose
second satellite id is 300, from a state with a completed burst: one
satellite is appended, the mask is untouched, the burst flag ends
true (final message). -/
theorem c10_gsv_partial_witness :
    (doGSV gsvBadId { lastGSV := true }).curLoc.sats.length = 1 ∧
    (doGSV gsvBadId { lastGSV := true }).curLoc.smask = 0 ∧
    (doGSV gsvBadId { lastGSV := true }).lastGSV = true := by
  obtain ⟨h1, h2, h3⟩ := c10_gsv_partial gsvBadId { lastGSV := true } 1 2
    (by decide) (by decide) (by decide) (by decide) (by decide)
    (fun k hk => by
      have hk0 : k = 0 := by omega
      subst hk0
      exact ⟨by decide, by decide⟩)
    (by decide)
  refine ⟨?_, ?_, ?_⟩
  · rw [h1]; rfl
  · rw [h2]
  · rw [h3]; rfl

/-- The satellite-append loop only ever extends the satellite list. -/
theorem gsvLoop_sats_prefix (fields : List Str) :
    ∀ r i st, ∃ app : List LocSat,
    (gsvLoop fields i r st).curLoc.sats = st.curLoc.sats ++ app := by
  intro r
  induction r with
  | zero => intro i st; exact ⟨[], by simp [gsvLoop]⟩
  | succ n ih =>
    intro i st
    rw [gsvLoop]
    simp only []
    by_cases hbad : atoi (fld fields (4 + i * 4)) = 0 ∨
        atoi (fld fields (4 + i * 4)) < 0 ∨ 255 < atoi (fld fields (4 + i * 4))
    · exact ⟨[], by rw [if_pos hbad]; simp⟩
    · obtain ⟨app, happ⟩ := ih (i + 1)
        { st with curLoc := { st.curLoc with
            sats := st.curLoc.sats ++ [mkSat fields st.iuBM i
              (atoi (fld fields (4 + i * 4)))] } }
      refine ⟨mkSat fields st.iuBM i (atoi (fld fields (4 + i * 4))) :: app, ?_⟩
      rw [if_neg hbad, happ]
      simp

/-- One cycle close with no GSV contribution: the counter increments
and the satellite list survives until the counter reaches 4. -/
theorem getLoc_noGSV (st : LocState) (h : st.curLoc.smask &&& GxGSV = 0) :
    ((getLoc st).2).curLoc.sats =
      (if 4 ≤ st.noGSVcnt + 1 then [] else st.curLoc.sats) ∧
    ((getLoc st).2).noGSVcnt = st.noGSVcnt + 1 ∧
    ((getLoc st).2).curLoc.smask = 0 := by
  simp [getLoc, h]
  split_ifs <;> simp

/-- Iterated GSV-less cycle closes from a closed accumulator: the
satellite list is cleared exactly from the 4th close on. -/
theorem closeCycles_noGSV :
    ∀ k st, st.curLoc.smask = 0 → 1 ≤ k →
    (closeCycles k st).curLoc.sats =
      (if 4 ≤ st.noGSVcnt + k then [] else st.curLoc.sats) ∧
    (closeCycles k st).noGSVcnt = st.noGSVcnt + k ∧
    (closeCycles k st).curLoc.smask = 0 := by
  intro k
  induction k with
  | zero => intro st _ h1; omega
  | succ n ih =>
    intro st hm _
    have hbit : st.curLoc.smask &&& GxGSV = 0 := by rw [hm]; rfl
    obtain ⟨hs1, hs2, hs3⟩ := getLoc_noGSV st hbit
    by_cases hn : 1 ≤ n
    · have hrec := ih ((getLoc st).2) hs3 hn
      rw [show closeCycles (n + 1) st = closeCycles n ((getLoc st).2) from rfl]
      obtain ⟨hr1, hr2, hr3⟩ := hrec
      refine ⟨?_, by rw [hr2, hs2]; omega, hr3⟩
      rw [hr1, hs2, hs1]
      split_ifs <;> first | rfl | omega
    · have hn0 : n = 0 := by omega
      subst hn0
      exact ⟨hs1, hs2, hs3⟩

/-- checkCycle only touches the cycle-detection fields of the state. -/
theorem checkCycle_frame (ss : List Str) (now : Nat) (st : LocState)
    (b : Bool) (st' : LocState) (h : checkCycle ss now st = some (b, st')) :
    st'.curLoc = st.curLoc ∧ st'.iuBM = st.iuBM ∧ st'.lastGSV = st.lastGSV ∧
    st'.noGSVcnt = st.noGSVcnt ∧ st'.minDel = st.minDel ∧
    st'.tPrev = st.tPrev := by
  simp only [checkCycle] at h
  split_ifs at h <;>
    first
    | (rcases h1 : ss.get? 1 with _ | a <;> rcases h2 : ss.get? 2 with _ | c <;>
        rw [h1, h2] at h <;> simp at h <;> obtain ⟨-, h⟩ := h <;> subst h <;>
        exact ⟨rfl, rfl, rfl, rfl, rfl, rfl⟩)
    | (simp at h; obtain ⟨-, h⟩ := h; subst h; exact ⟨rfl, rfl, rfl, rfl, rfl, rfl⟩)

/-- senseStep only touches the cycle-detection fields of the state. -/
theorem senseStep_frame (ss : List Str) (now : Nat) (st : LocState)
    (b : Bool) (st' : LocState) (h : senseStep ss now st = some (b, st')) :
    st'.curLoc = st.curLoc ∧ st'.iuBM = st.iuBM ∧ st'.lastGSV = st.lastGSV ∧
    st'.noGSVcnt = st.noGSVcnt := by
  simp only [senseStep] at h
  rcases hc : checkCycle ss now st with _ | p
  · rw [hc] at h; simp at h
  · rw [hc] at h
    simp at h
    obtain ⟨-, h⟩ := h
    obtain ⟨f1, f2, f3, f4, -, -⟩ := checkCycle_frame ss now st p.1 p.2 (by rw [hc])
    subst h
    exact ⟨f1, f2, f3, f4⟩

/-- C4: the satellite collection is cleared in exactly two situations.
At cycle close, a GSV-contributing cycle resets the no-GSV counter and
keeps the list; a GSV-less close increments it and clears the list
exactly from the 4th consecutive GSV-less close on.  In the GSV
handler the list is cleared (then appended to) precisely when a valid
GP-talker sentence arrives with the burst-completion flag set; every
other operation of the pipeline — the other handlers, the cycle
detector bookkeeping, and rejection of an invalid sentence — leaves
the satellite list untouched. -/
theorem c4_sats_lifecycle :
    (∀ st : LocState, st.curLoc.smask &&& GxGSV ≠ 0 →
      ((getLoc st).2).curLoc.sats = st.curLoc.sats ∧
      ((getLoc st).2).noGSVcnt = 0) ∧
    (∀ st : LocState, st.curLoc.smask &&& GxGSV = 0 →
      ((getLoc st).2).curLoc.sats =
        (if 4 ≤ st.noGSVcnt + 1 then [] else st.curLoc.sats) ∧
      ((getLoc st).2).noGSVcnt = st.noGSVcnt + 1) ∧
    (∀ st : LocState, st.curLoc.smask = 0 → ∀ k, 1 ≤ k →
      (closeCycles k st).curLoc.sats =
        (if 4 ≤ st.noGSVcnt + k then [] else st.curLoc.sats)) ∧
    (∀ fields st, ∃ app : List LocSat,
      (doGSV fields st).curLoc.sats =
        (if ¬(atoi (fld fields 2) > atoi (fld fields 1) ∨ atoi (fld fields 3) < 0 ∨
              atoi (fld fields 1) ≠ (atoi (fld fields 3) + 3).tdiv 4) ∧
            ¬(fields.length < 4 + 4 * (if atoi (fld fields 2) = atoi (fld fields 1)
              then ((atoi (fld fields 3) - 1).tmod 4 + 1).toNat else 4)) ∧
            (st.lastGSV ∧ (fld fields 0).getD 1 0 = 80)
          then [] else st.curLoc.sats) ++ app) ∧
    (∀ fields st, (doGGA fields st).curLoc.sats = st.curLoc.sats) ∧
    (∀ fields st st', doRMC fields st = some st' →
      st'.curLoc.sats = st.curLoc.sats) ∧
    (∀ fields st st', doGSA fields st = some st' →
      st'.curLoc.sats = st.curLoc.sats) ∧
    (∀ ss now st b st', senseStep ss now st = some (b, st') →
      st'.curLoc.sats = st.curLoc.sats) ∧
    (∀ s now st, validateSentence s = none →
      processSentence s now st = some (st, none)) := by
  refine ⟨?_, ?_, ?_, ?_, ?_, ?_, ?_, ?_, ?_⟩
  · intro st h
    simp [getLoc, h]
  · intro st h
    exact ⟨(getLoc_noGSV st h).1, (getLoc_noGSV st h).2.1⟩
  · intro st hm k hk
    exact (closeCycles_noGSV k st hm hk).1
  · intro fields st
    by_cases hrej : atoi (fld fields 2) > atoi (fld fields 1) ∨
        atoi (fld fields 3) < 0 ∨
        atoi (fld fields 1) ≠ (atoi (fld fields 3) + 3).tdiv 4
    · refine ⟨[], ?_⟩
      simp only [doGSV]
      rw [if_pos hrej, if_neg (fun h => h.1 hrej), List.append_nil]
    · by_cases hlen : fields.length < 4 + 4 *
          (if atoi (fld fields 2) = atoi (fld fields 1)
            then ((atoi (fld fields 3) - 1).tmod 4 + 1).toNat else 4)
      · refine ⟨[], ?_⟩
        simp only [doGSV]
        rw [if_neg hrej, if_pos hlen, if_neg (fun h => h.2.1 hlen),
          List.append_nil]
      · simp only [doGSV]
        rw [if_neg hrej, if_neg hlen]
        have key : ∀ (Y : LocState) (B : List LocSat) (r : Nat),
            Y.curLoc.sats = B →
            ∃ app, (gsvLoop fields 0 r Y).curLoc.sats = B ++ app := by
          intro Y B r hY
          obtain ⟨app, h⟩ := gsvLoop_sats_prefix fields r 0 Y
          exact ⟨app, by rw [h, hY]⟩
        apply key
        by_cases hc : st.lastGSV ∧ (fld fields 0).getD 1 0 = 80
        · have hC := And.intro hrej (And.intro hlen hc)
          by_cases hf : atoi (fld fields 2) = atoi (fld fields 1)
          · rw [if_pos hf, if_pos hc, if_pos hC]
          · rw [if_neg hf, if_pos hc, if_pos hC]
        · by_cases hf : atoi (fld fields 2) = atoi (fld fields 1)
          · rw [if_pos hf, if_neg hc, if_neg (fun h => hc h.2.2)]
          · rw [if_neg hf, if_neg hc, if_neg (fun h => hc h.2.2)]
  · intro fields st
    simp [doGGA]
  · intro fields st st' h
    simp only [doRMC] at h
    split at h
    · exact absurd h (by simp)
    · rw [← Option.some.inj h]
  · intro fields st st' h
    simp only [doGSA] at h
    rcases hbm : gsaLoop fields st.iuBM with _ | bm
    · rw [hbm] at h
      simp at h
    · rw [hbm] at h
      simp at h
      rw [← h]
  · intro ss now st b st' h
    exact congrArg LocInfo.sats (senseStep_frame ss now st b st' h).1
  · intro s now st h
    simp [processSentence, h]

/-- C4 witness: `c4_sats_lifecycle` applied at concrete states: a
GSV-less close from counter 3 clears the satellite list; from counter
0 it takes exactly 4 closes. -/
theorem c4_sats_lifecycle_witness :
    ((getLoc { noGSVcnt := 3, curLoc := { sats := [{ id := 9 }] } }).2).curLoc.sats = [] ∧
    (closeCycles 4 { curLoc := { sats := [{ id := 9 }] } }).curLoc.sats = [] ∧
    (closeCycles 3 { curLoc := { sats := [{ id := 9 }] } }).curLoc.sats =
      [{ id := 9 }] := by
  refine ⟨?_, ?_, ?_⟩
  · have h := (c4_sats_lifecycle.2.1
      { noGSVcnt := 3, curLoc := { sats := [{ id := 9 }] } } (by decide)).1
    rw [h]
    rfl
  · have h := c4_sats_lifecycle.2.2.1
      { curLoc := { sats := [{ id := 9 }] } } (by decide) 4 (by decide)
    rw [h]
    rfl
  · have h := c4_sats_lifecycle.2.2.1
      { curLoc := { sats := [{ id := 9 }] } } (by decide) 3 (by decide)
    rw [h]
    rfl

/-- In learning mode (no known last sentence type) a sentence never
signals a boundary, and the candidate/counter state evolves as the
code writes it: a qualifying gap compares the previous type with the
stored candidate, incrementing the counter on a match (adopting the
type when the counter reaches 4) and re-installing the candidate with
the counter at 0 on a mismatch. -/
theorem senseStep_learning (ss : List Str) (now : Nat) (st : LocState)
    (hl : st.lst = []) :
    senseStep ss now st =
      some (false,
        { (if st.pst ≠ [] then
            if now - st.tPrev ≥ st.minDel then
              if st.pst = st.tst then
                (if st.nOk + 1 = 4 then
                  { st with nOk := st.nOk + 1, lst := st.pst }
                 else { st with nOk := st.nOk + 1 })
              else { st with tst := st.pst, nOk := 0 }
            else st
          else st) with tPrev := now, pst := ss.headD [] }) := by
  simp only [senseStep, checkCycle, hl]
  rw [if_neg (fun h => h rfl)]
  split_ifs <;> rfl

/-- Learning mode, qualifying gap, candidate mismatch: the candidate
is re-installed and the counter reset to 0 (not 1). -/
theorem senseStep_mismatch (ss : List Str) (now : Nat) (st : LocState)
    (hl : st.lst = []) (hp : st.pst ≠ []) (hg : now - st.tPrev ≥ st.minDel)
    (hne : ¬(st.pst = st.tst)) :
    senseStep ss now st = some (false,
      { st with tst := st.pst, nOk := 0, tPrev := now, pst := ss.headD [] }) := by
  rw [senseStep_learning ss now st hl, if_pos hp, if_pos hg, if_neg hne]

/-- Learning mode, qualifying gap, candidate match, counter below 4:
the counter increments and no type is learned. -/
theorem senseStep_match_nolearn (ss : List Str) (now : Nat) (st : LocState)
    (hl : st.lst = []) (hp : st.pst ≠ []) (hg : now - st.tPrev ≥ st.minDel)
    (heq : st.pst = st.tst) (hn4 : ¬(st.nOk + 1 = 4)) :
    senseStep ss now st = some (false,
      { st with nOk := st.nOk + 1, tPrev := now, pst := ss.headD [] }) := by
  rw [senseStep_learning ss now st hl, if_pos hp, if_pos hg, if_pos heq,
    if_neg hn4]

/-- Learning mode, qualifying gap, candidate match, counter reaching 4:
the candidate becomes the learned last sentence type. -/
theorem senseStep_match_learn (ss : List Str) (now : Nat) (st : LocState)
    (hl : st.lst = []) (hp : st.pst ≠ []) (hg : now - st.tPrev ≥ st.minDel)
    (heq : st.pst = st.tst) (hn4 : st.nOk + 1 = 4) :
    senseStep ss now st = some (false,
      { st with nOk := st.nOk + 1, lst := st.pst, tPrev := now, pst := ss.headD [] }) := by
  rw [senseStep_learning ss now st hl, if_pos hp, if_pos hg, if_pos heq,
    if_pos hn4]

/-- Learning mode with no qualifying gap: only the previous-sentence
bookkeeping changes. -/
theorem senseStep_noqual (ss : List Str) (now : Nat) (st : LocState)
    (hl : st.lst = []) (hq : ¬(st.pst ≠ [] ∧ now - st.tPrev ≥ st.minDel)) :
    senseStep ss now st = some (false,
      { st with tPrev := now, pst := ss.headD [] }) := by
  rw [senseStep_learning ss now st hl]
  by_cases hp : st.pst ≠ []
  · rw [if_pos hp, if_neg (fun hg => hq ⟨hp, hg⟩)]
  · rw [if_neg hp]

/-- Learning-run induction: from a state with no known type whose
candidate/counter pair has seen `k` consecutive candidates of type `T`
(`k = 0` meaning none yet), an event list whose qualifying candidates
are all `T` and bring the total to at most 4 never signals a boundary
and never learns a type. -/
theorem learn_aux :
    ∀ (events : List (List Str × Nat)) (T : Str) (st : LocState) (k : Nat),
    T ≠ [] → st.lst = [] →
    ((st.tst = [] ∧ st.nOk = 0 ∧ k = 0) ∨
      (st.tst = T ∧ st.nOk + 1 = k ∧ 1 ≤ k)) →
    (∀ c ∈ qualCands st.minDel (st.pst, st.tPrev) events, c = T) →
    k + (qualCands st.minDel (st.pst, st.tPrev) events).length ≤ 4 →
    ∃ stf, runSense st events = some (stf, List.replicate events.length false) ∧
      stf.lst = [] := by
  intro events
  induction events with
  | nil =>
    intro T st k hT hl _ _ _
    exact ⟨st, by simp [runSense], hl⟩
  | cons e rest ih =>
    obtain ⟨ss, now⟩ := e
    intro T st k hT hl hinv hcand hbound
    simp only [runSense]
    simp only [qualCands] at hcand hbound
    by_cases hq : st.pst ≠ [] ∧ now - st.tPrev ≥ st.minDel
    · rw [if_pos hq] at hcand hbound
      rw [List.length_append, List.length_singleton] at hbound
      have hpT : st.pst = T := hcand st.pst (List.mem_append.mpr (Or.inl (by simp)))
      have hrest : ∀ c ∈ qualCands st.minDel (ss.headD [], now) rest, c = T :=
        fun c hc => hcand c (List.mem_append.mpr (Or.inr hc))
      rcases hinv with ⟨ht, hn, hk⟩ | ⟨ht, hn, hk⟩
      · have hne : ¬(st.pst = st.tst) := by
          rw [hpT, ht]
          exact hT
        have hb2 : 1 + (qualCands st.minDel (ss.headD [], now) rest).length ≤ 4 := by
          omega
        simp only [senseStep_mismatch ss now st hl hq.1 hq.2 hne]
        obtain ⟨stf, hrun, hlst⟩ := ih T
          { st with tst := st.pst, nOk := 0, tPrev := now, pst := ss.headD [] }
          1 hT hl (Or.inr ⟨hpT, rfl, le_rfl⟩) hrest hb2
        rw [hrun]
        exact ⟨stf, rfl, hlst⟩
      · have heq : st.pst = st.tst := by rw [hpT, ht]
        have hn4 : ¬(st.nOk + 1 = 4) := by omega
        have hinv2 : st.tst = T ∧ st.nOk + 1 + 1 = k + 1 ∧ 1 ≤ k + 1 :=
          ⟨ht, by omega, by omega⟩
        have hb2 : (k + 1) + (qualCands st.minDel (ss.headD [], now) rest).length ≤ 4 := by
          omega
        simp only [senseStep_match_nolearn ss now st hl hq.1 hq.2 heq hn4]
        obtain ⟨stf, hrun, hlst⟩ := ih T
          { st with nOk := st.nOk + 1, tPrev := now, pst := ss.headD [] }
          (k + 1) hT hl (Or.inr hinv2) hrest hb2
        rw [hrun]
        exact ⟨stf, rfl, hlst⟩
    · rw [if_neg hq] at hcand hbound
      rw [List.nil_append] at hcand hbound
      simp only [senseStep_noqual ss now st hl hq]
      obtain ⟨stf, hrun, hlst⟩ := ih T
        { st with tPrev := now, pst := ss.headD [] } k hT hl hinv hcand hbound
      rw [hrun]
      exact ⟨stf, rfl, hlst⟩

/-- C2 counterexample: the claim as stated fails on the code.  (i) After
4 consecutive qualifying GPGLL candidates from the fresh learning state
(5 uniform sentences with qualifying gaps) the last sentence type is
still unlearned, and it is learned only at the 5th candidate (6
sentences); (ii) on a qualifying mismatch the counter is reset to 0,
not 1. -/
theorem c2_counterexample :
    (learnRun (strBytes "GPGLL") 5).map (fun p => p.1.lst) = some [] ∧
    (learnRun (strBytes "GPGLL") 6).map (fun p => p.1.lst) =
      some (strBytes "GPGLL") ∧
    (senseStep [strBytes "GPRMC"] 400
        { minDel := 300, pst := strBytes "GPGLL", tst := strBytes "GPRMC",
          nOk := 2 }).map (fun p => p.2.nOk) = some 0 ∧
    (senseStep [strBytes "GPRMC"] 400
        { minDel := 300, pst := strBytes "GPGLL", tst := strBytes "GPRMC",
          nOk := 2 }).map (fun p => p.2.nOk) ≠ some 1 := by
  exact ⟨by decide, by decide, by decide, by decide⟩

/-- C2 (amended): in learning mode the boundary decision is always
false; any event run whose qualifying candidates are all of one type
and number at most 4 leaves the type unlearned (the counter is reset
to 0 on a mismatch, so 4 matching candidates after the installing one
— the 5th consecutive identical candidate — are required); the
learning transition fires exactly when a qualifying matching candidate
arrives with the counter at 3, adopting the candidate type. -/
theorem c2_learning :
    (∀ ss now st, st.lst = [] →
      ∃ st', senseStep ss now st = some (false, st')) ∧
    (∀ (T : Str) (events : List (List Str × Nat)) (st : LocState),
      T ≠ [] → st.lst = [] → st.tst = [] → st.nOk = 0 →
      (∀ c ∈ qualCands st.minDel (st.pst, st.tPrev) events, c = T) →
      (qualCands st.minDel (st.pst, st.tPrev) events).length ≤ 4 →
      ∃ stf, runSense st events =
        some (stf, List.replicate events.length false) ∧ stf.lst = []) ∧
    (∀ ss now st, st.lst = [] → st.pst ≠ [] → st.pst = st.tst → st.nOk = 3 →
      now - st.tPrev ≥ st.minDel →
      senseStep ss now st = some (false,
        { st with nOk := 4, lst := st.pst, tPrev := now, pst := ss.headD [] })) := by
  refine ⟨?_, ?_, ?_⟩
  · intro ss now st hl
    rw [senseStep_learning ss now st hl]
    exact ⟨_, rfl⟩
  · intro T events st hT hl ht hn hcand hbound
    exact learn_aux events T st 0 hT hl (Or.inl ⟨ht, hn, rfl⟩) hcand
      (by omega)
  · intro ss now st hl hp heq hn3 hg
    rw [senseStep_match_learn ss now st hl hp hg heq (by omega), hn3]

/-- C2 witness: `c2_learning` applied at concrete inputs: a uniform
5-sentence GPGLL run (4 qualifying candidates) signals no boundary,
and the learning transition at counter 3 adopts the type. -/
theorem c2_learning_witness :
    (learnRun (strBytes "GPGLL") 5).map (fun p => p.2) =
      some (List.replicate 5 false) ∧
    (senseStep [strBytes "GPGLL"] 400
        { minDel := 300, pst := strBytes "GPGLL", tst := strBytes "GPGLL",
          nOk := 3 }).map (fun p => p.2.lst) = some (strBytes "GPGLL") := by
  constructor
  · obtain ⟨stf, h1, h2⟩ := c2_learning.2.1 (strBytes "GPGLL")
      ((List.range 5).map (fun i => ([strBytes "GPGLL"], 400 * i)))
      { minDel := 300 } (by decide) rfl rfl rfl (by decide) (by decide)
    rw [show learnRun (strBytes "GPGLL") 5 = runSense { minDel := 300 }
      ((List.range 5).map (fun i => ([strBytes "GPGLL"], 400 * i))) from rfl, h1]
    rfl
  · rw [c2_learning.2.2 [strBytes "GPGLL"] 400
      { minDel := 300, pst := strBytes "GPGLL", tst := strBytes "GPGLL",
        nOk := 3 } rfl (by decide) rfl rfl (by decide)]
    rfl

theorem findB_append (c : Nat) (a b : Str) :
    findB c (a ++ b) =
      match findB c a with
      | some i => some i
      | none => (findB c b).map (· + a.length) := by
  induction a with
  | nil => simp [findB]
  | cons x xs ih =>
    by_cases hx : x = c
    · simp [findB, hx]
    · rw [List.cons_append,
        show findB c (x :: (xs ++ b)) = (findB c (xs ++ b)).map (· + 1) from by
          simp [findB, hx],
        show findB c (x :: xs) = (findB c xs).map (· + 1) from by
          simp [findB, hx],
        ih]
      cases hfa : findB c xs with
      | some i => simp
      | none =>
        cases hfb : findB c b with
        | none => simp
        | some j =>
          simp only [Option.map_none', Option.map_some', List.length_cons]
          simp only [Option.some.injEq]
          omega

/-- Feed in LF-waiting state with no LF in the chunk: the chunk is
buffered. -/
theorem FeedF_one_none (k : Nat) (buf : Str) (st : LocState) (now : Nat)
    (data : Str) (h : findB 10 data = none) :
    FeedF (k + 1) buf st now data = some ((1, buf ++ data), st, []) := by
  conv_lhs => rw [FeedF]
  split
  · rfl
  · rename_i i heq
    rw [h] at heq
    cases heq

/-- Feed in LF-waiting state with an LF at `i`: one sentence completes
and scanning resumes after it. -/
theorem FeedF_one_some (k : Nat) (buf : Str) (st : LocState) (now : Nat)
    (data : Str) (i : Nat) (h : findB 10 data = some i) :
    FeedF (k + 1) buf st now data =
      (processSentence (buf ++ data.take (i + 1)) now st).bind (fun r =>
        (FeedF 0 [] r.1 now (data.drop (i + 1))).map (fun q =>
          (q.1, q.2.1, r.2.toList ++ q.2.2))) := by
  conv_lhs => rw [FeedF]
  split
  · rename_i heq
    rw [h] at heq
    cases heq
  · rename_i j heq
    rw [h] at heq
    cases heq
    rfl

/-- Feed in start-seeking state with no `$` in the chunk: the chunk is
discarded. -/
theorem FeedF_zero_none (buf : Str) (st : LocState) (now : Nat)
    (data : Str) (h : findB 36 data = none) :
    FeedF 0 buf st now data = some ((0, buf), st, []) := by
  conv_lhs => rw [FeedF]
  split
  · rfl
  · rename_i i heq
    rw [h] at heq
    cases heq

/-- Feed in start-seeking state with a `$` at `i`: the rest of the
chunk is handled in LF-waiting state. -/
theorem FeedF_zero_some (buf : Str) (st : LocState) (now : Nat)
    (data : Str) (i : Nat) (h : findB 36 data = some i) :
    FeedF 0 buf st now data = FeedF 1 buf st now (data.drop i) := by
  conv_lhs => rw [FeedF]
  split
  · rename_i heq
    rw [h] at heq
    cases heq
  · rename_i j heq
    rw [h] at heq
    cases heq
    rfl

/-- The frame-scan state after any Feed call is 0 or 1. -/
theorem FeedF_fs_le :
    ∀ n : Nat,
    (∀ data : Str, data.length ≤ n → ∀ (k : Nat) buf st now fb st' f,
      FeedF (k + 1) buf st now data = some (fb, st', f) → fb.1 ≤ 1) ∧
    (∀ data : Str, data.length ≤ n → ∀ buf st now fb st' f,
      FeedF 0 buf st now data = some (fb, st', f) → fb.1 ≤ 1) := by
  intro n
  induction n with
  | zero =>
    constructor
    · intro data hd k buf st now fb st' f h
      have hde : data = [] := List.length_eq_zero.mp (by omega)
      subst hde
      rw [FeedF_one_none k buf st now [] (by rfl)] at h
      have hfb := congrArg (fun t => t.1.1) (Option.some.inj h)
      simp at hfb
      omega
    · intro data hd buf st now fb st' f h
      have hde : data = [] := List.length_eq_zero.mp (by omega)
      subst hde
      rw [FeedF_zero_none buf st now [] (by rfl)] at h
      have hfb := congrArg (fun t => t.1.1) (Option.some.inj h)
      simp at hfb
      omega
  | succ m ih =>
    have h1 : ∀ data : Str, data.length ≤ m + 1 →
        ∀ (k : Nat) buf st now fb st' f,
        FeedF (k + 1) buf st now data = some (fb, st', f) → fb.1 ≤ 1 := by
      intro data hd k buf st now fb st' f h
      cases hfa : findB 10 data with
      | none =>
        rw [FeedF_one_none k buf st now data hfa] at h
        have hfb := congrArg (fun t => t.1.1) (Option.some.inj h)
        simp at hfb
        omega
      | some i =>
        rw [FeedF_one_some k buf st now data i hfa] at h
        rcases hps : processSentence (buf ++ data.take (i + 1)) now st with
          _ | r
        · rw [hps] at h
          simp at h
        · rw [hps] at h
          simp only [Option.some_bind] at h
          rcases hr : FeedF 0 [] r.1 now (data.drop (i + 1)) with _ | q
          · rw [hr] at h
            simp at h
          · rw [hr] at h
            simp only [Option.map_some'] at h
            have hfbeq : q.1 = fb :=
              congrArg Prod.fst (Option.some.inj h)
            have hlen : (data.drop (i + 1)).length ≤ m := by
              have := findB_lt_length hfa
              simp only [List.length_drop]
              omega
            have hle := ih.2 (data.drop (i + 1)) hlen [] r.1 now q.1 q.2.1
              q.2.2 (by rw [hr])
            rw [← hfbeq]
            exact hle
    refine ⟨h1, ?_⟩
    intro data hd buf st now fb st' f h
    cases hfa : findB 36 data with
    | none =>
      rw [FeedF_zero_none buf st now data hfa] at h
      have hfb := congrArg (fun t => t.1.1) (Option.some.inj h)
      simp at hfb
      omega
    | some i =>
      rw [FeedF_zero_some buf st now data i hfa] at h
      exact h1 (data.drop i) (by simp only [List.length_drop]; omega)
        0 buf st now fb st' f h

/-- Any non-zero frame-scan state behaves as state 1. -/
theorem FeedF_succ (k : Nat) (buf : Str) (st : LocState) (now : Nat)
    (data : Str) : FeedF (k + 1) buf st now data = FeedF 1 buf st now data := by
  conv_lhs => rw [FeedF]
  conv_rhs => rw [FeedF]

/-- Splitting one Feed call in two at any byte boundary yields the same
final framing state, package state and fix sequence. -/
theorem FeedF_append_aux :
    ∀ n : Nat,
    (∀ a : Str, a.length ≤ n → ∀ (k : Nat) (buf : Str) (st : LocState)
      (now : Nat) (b : Str),
      FeedF (k + 1) buf st now (a ++ b) =
        feedCompose (FeedF (k + 1) buf st now a) now b) ∧
    (∀ a : Str, a.length ≤ n → ∀ (buf : Str) (st : LocState)
      (now : Nat) (b : Str),
      FeedF 0 buf st now (a ++ b) = feedCompose (FeedF 0 buf st now a) now b) := by
  intro n
  induction n with
  | zero =>
    constructor
    · intro a ha k buf st now b
      have hae : a = [] := List.length_eq_zero.mp (by omega)
      subst hae
      rw [List.nil_append, FeedF_one_none k buf st now [] (by rfl)]
      simp only [feedCompose, Option.some_bind, List.append_nil]
      rw [FeedF_succ k buf st now b]
      rcases hY : FeedF 1 buf st now b with _ | q
      · rfl
      · simp
    · intro a ha buf st now b
      have hae : a = [] := List.length_eq_zero.mp (by omega)
      subst hae
      rw [List.nil_append, FeedF_zero_none buf st now [] (by rfl)]
      simp only [feedCompose, Option.some_bind]
      rcases hY : FeedF 0 buf st now b with _ | q
      · rfl
      · simp
  | succ m ih =>
    have h1 : ∀ a : Str, a.length ≤ m + 1 → ∀ (k : Nat) (buf : Str)
        (st : LocState) (now : Nat) (b : Str),
        FeedF (k + 1) buf st now (a ++ b) =
          feedCompose (FeedF (k + 1) buf st now a) now b := by
      intro a ha k buf st now b
      cases hfa : findB 10 a with
      | none =>
        have hfab : findB 10 (a ++ b) = (findB 10 b).map (· + a.length) := by
          rw [findB_append, hfa]
        rw [FeedF_one_none k buf st now a hfa]
        simp only [feedCompose, Option.some_bind]
        cases hfb : findB 10 b with
        | none =>
          have hfabn : findB 10 (a ++ b) = none := by rw [hfab, hfb]; rfl
          rw [FeedF_one_none k buf st now (a ++ b) hfabn,
            FeedF_one_none 0 (buf ++ a) st now b hfb]
          simp [List.append_assoc]
        | some j =>
          have hfabs : findB 10 (a ++ b) = some (a.length + j) := by
            rw [hfab, hfb]
            simp [Nat.add_comm]
          rw [FeedF_one_some k buf st now (a ++ b) (a.length + j) hfabs,
            FeedF_one_some 0 (buf ++ a) st now b j hfb]
          have hsum : a.length + j + 1 = a.length + (j + 1) := by omega
          have ht : (a ++ b).take (a.length + j + 1) = a ++ b.take (j + 1) := by
            rw [hsum, List.take_append]
          have hdr : (a ++ b).drop (a.length + j + 1) = b.drop (j + 1) := by
            rw [hsum, List.drop_append]
          rw [ht, hdr, show buf ++ (a ++ b.take (j + 1)) =
            (buf ++ a) ++ b.take (j + 1) from by rw [List.append_assoc]]
          rcases hps : processSentence ((buf ++ a) ++ b.take (j + 1)) now st
            with _ | r
          · rfl
          · simp only [Option.some_bind]
            rcases hr : FeedF 0 [] r.1 now (b.drop (j + 1)) with _ | q
            · rfl
            · simp
      | some i =>
        have hia := findB_lt_length hfa
        have hfab : findB 10 (a ++ b) = some i := by
          rw [findB_append, hfa]
        rw [FeedF_one_some k buf st now (a ++ b) i hfab,
          FeedF_one_some k buf st now a i hfa]
        have ht : (a ++ b).take (i + 1) = a.take (i + 1) := by
          rw [List.take_append_of_le_length (by omega)]
        have hdr : (a ++ b).drop (i + 1) = a.drop (i + 1) ++ b := by
          rw [List.drop_append_of_le_length (by omega)]
        rw [ht, hdr]
        simp only [feedCompose]
        rcases hps : processSentence (buf ++ a.take (i + 1)) now st
          with _ | r
        · rfl
        · simp only [Option.some_bind]
          have hrec := ih.2 (a.drop (i + 1))
            (by simp only [List.length_drop]; omega) [] r.1 now b
          rw [hrec]
          simp only [feedCompose]
          rcases hq : FeedF 0 [] r.1 now (a.drop (i + 1)) with _ | q
          · rfl
          · simp only [Option.some_bind, Option.map_some']
            rcases hz : FeedF q.1.1 q.1.2 q.2.1 now b with _ | z
            · rfl
            · simp [List.append_assoc]
    refine ⟨h1, ?_⟩
    intro a ha buf st now b
    cases hfa : findB 36 a with
    | none =>
      have hfab : findB 36 (a ++ b) = (findB 36 b).map (· + a.length) := by
        rw [findB_append, hfa]
      rw [FeedF_zero_none buf st now a hfa]
      simp only [feedCompose, Option.some_bind]
      cases hfb : findB 36 b with
      | none =>
        have hfabn : findB 36 (a ++ b) = none := by rw [hfab, hfb]; rfl
        rw [FeedF_zero_none buf st now (a ++ b) hfabn,
          FeedF_zero_none buf st now b hfb]
        rfl
      | some j =>
        have hfabs : findB 36 (a ++ b) = some (a.length + j) := by
          rw [hfab, hfb]
          simp [Nat.add_comm]
        rw [FeedF_zero_some buf st now (a ++ b) (a.length + j) hfabs,
          FeedF_zero_some buf st now b j hfb]
        rw [List.drop_append]
        rcases hY : FeedF 1 buf st now (b.drop j) with _ | q
        · rfl
        · simp
    | some i =>
      have hia := findB_lt_length hfa
      have hfab : findB 36 (a ++ b) = some i := by
        rw [findB_append, hfa]
      rw [FeedF_zero_some buf st now (a ++ b) i hfab,
        FeedF_zero_some buf st now a i hfa]
      rw [List.drop_append_of_le_length (by omega)]
      have := h1 (a.drop i) (by simp only [List.length_drop]; omega)
        0 buf st now b
      exact this

/-- C9: feeding a byte stream in arbitrarily many chunks yields exactly
the same result as feeding it in one call: the same final framing
state, the same package state, and the identical sequence of delivered
fixes (the framer's two-state machine isolates the same candidate
sentences regardless of chunk boundaries). -/
theorem c9_chunk_independence :
    ∀ (chunks : List Str) (fs : Nat) (buf : Str) (st : LocState) (now : Nat),
    fs ≤ 1 →
    feedChunks fs buf st now chunks = FeedF fs buf st now chunks.flatten := by
  intro chunks
  induction chunks with
  | nil =>
    intro fs buf st now hfs
    interval_cases fs
    · rw [show (List.flatten ([] : List Str)) = [] from rfl,
        FeedF_zero_none buf st now [] (by rfl)]
      rfl
    · rw [show (List.flatten ([] : List Str)) = [] from rfl,
        FeedF_one_none 0 buf st now [] (by rfl)]
      simp [feedChunks]
  | cons d ds ih =>
    intro fs buf st now hfs
    rw [show (d :: ds).flatten = d ++ ds.flatten from rfl]
    have hsplit : FeedF fs buf st now (d ++ ds.flatten) =
        feedCompose (FeedF fs buf st now d) now ds.flatten := by
      interval_cases fs
      · exact (FeedF_append_aux d.length).2 d le_rfl buf st now ds.flatten
      · exact (FeedF_append_aux d.length).1 d le_rfl 0 buf st now ds.flatten
    rw [hsplit]
    rcases hY : FeedF fs buf st now d with _ | p
    · simp [feedChunks, hY, feedCompose]
    · have hple : p.1.1 ≤ 1 := by
        rcases hfs1 : fs with _ | k
        · exact (FeedF_fs_le d.length).2 d le_rfl buf st now p.1 p.2.1 p.2.2
            (by rw [← hfs1, hY])
        · exact (FeedF_fs_le d.length).1 d le_rfl k buf st now p.1 p.2.1 p.2.2
            (by rw [← hfs1, hY])
      simp only [feedChunks, hY, Option.some_bind, feedCompose]
      rw [ih p.1.1 p.1.2 p.2.1 now hple]

/-- C9 witness: `c9_chunk_independence` applied to a concrete split of
a sentence across three chunks against a fresh state. -/
theorem c9_chunk_independence_witness :
    feedChunks 0 [] { minDel := 300 } 0
        [strBytes "$GP", strBytes "GLL,4916.45,N,123", strBytes "11.12,W,225444,A,*1D\r\n"] =
      FeedF 0 [] { minDel := 300 } 0
        (strBytes "$GP" ++ (strBytes "GLL,4916.45,N,123" ++
          (strBytes "11.12,W,225444,A,*1D\r\n" ++ []))) :=
  c9_chunk_independence
    [strBytes "$GP", strBytes "GLL,4916.45,N,123", strBytes "11.12,W,225444,A,*1D\r\n"]
    0 [] { minDel := 300 } 0 (by decide)

end Loc
